import Mathlib

/-!
Verification of the ReAgent contextual-bandit LinUCB components.

Shallow embedding of:
  * `DisjointLinUCBTrainer` (reagent/training/cb/disjoint_linucb_trainer.py);
  * `DeepRepresentLinearRegressionUCB.forward` (reagent/models/deep_represent_linucb.py).

Tensors of known 2-D shape are embedded as `Matrix (Fin n) (Fin m) ℚ`;
batch elements whose rank is only checked at runtime carry an explicit shape
(`Tens`).  Real-valued scores (the square root in the uncertainty bonus) live
in `ℝ`.  A Python call that can raise is embedded as a function returning both
the post-call state and an optional error message, so partial mutation before
an exception is observable.
-/

namespace ReAgent

/-- Elementwise product with a broadcast `(n,1)` weight column: torch
`x * weight` for `x : (n,m)`, `weight : (n,1)`; entry `(i,j)` is
`x[i][j] * weight[i][0]`.  For `(n,1) * (n,1)` this coincides with the
elementwise product. -/
def rowMul {n m : ℕ} (x : Matrix (Fin n) (Fin m) ℚ) (w : Matrix (Fin n) (Fin 1) ℚ) :
    Matrix (Fin n) (Fin m) ℚ :=
  Matrix.of fun i j => x i j * w i 0

/-- torch `ones_like(y)` for a `(n,1)` tensor: an all-ones tensor of `y`'s shape. -/
def onesLike {n : ℕ} (_y : Matrix (Fin n) (Fin 1) ℚ) : Matrix (Fin n) (Fin 1) ℚ :=
  Matrix.of fun _ _ => 1

/-- torch `.squeeze()` of a `(d,1)` tensor: the 1-D vector of its single column. -/
def squeezeCol {d : ℕ} (M : Matrix (Fin d) (Fin 1) ℚ) : Fin d → ℚ := fun i => M i 0

/-- Modelled from the spec: ridge-regularized inversion (spec section 7,
"adding a small multiple of the identity before inversion"), used by
`estimate_coefficients` of `LinearRegressionUCB`
(reagent/models/linear_regression.py, not under src/). -/
noncomputable def ridgeInv {d : ℕ} (lam : ℚ) (A : Matrix (Fin d) (Fin d) ℚ) :
    Matrix (Fin d) (Fin d) ℚ :=
  (A + lam • (1 : Matrix (Fin d) (Fin d) ℚ))⁻¹

/-- Modelled from the spec: `batch_quadratic_form x M` from
reagent/models/linear_regression.py (not under src/); per spec section 4.1 the
row-`i` value is the quadratic form `xᵢᵗ · M · xᵢ`. -/
def batch_quadratic_form {n d : ℕ} (x : Matrix (Fin n) (Fin d) ℚ)
    (M : Matrix (Fin d) (Fin d) ℚ) : Fin n → ℚ :=
  fun i => Matrix.dotProduct (x i) (M.mulVec (x i))

/-- Modelled from the spec: the persistent state of
`DisjointLinearRegressionUCB` (reagent/models/disjoint_linucb_predictor.py is
not under src/).  Per spec section 4.2 it is `K` independent copies of the
`LinearRegressionUCB` state of section 4.1: sufficient statistics `A`, `b`,
the cached `inv_A` and `coefs`, the staleness snapshot `coefs_valid_for_A`,
and the ridge regularization strength. -/
structure DisjointLinearRegressionUCB (K d : ℕ) where
  A : Fin K → Matrix (Fin d) (Fin d) ℚ
  b : Fin K → Fin d → ℚ
  inv_A : Fin K → Matrix (Fin d) (Fin d) ℚ
  coefs : Fin K → Fin d → ℚ
  coefs_valid_for_A : Fin K → Matrix (Fin d) (Fin d) ℚ
  l2_reg : ℚ

/-- Modelled from the spec: `DisjointLinearRegressionUCB._estimate_coefs`
(reagent/models/disjoint_linucb_predictor.py, not under src/); per spec
section 4.2 it "recomputes all arms' coefficients/inverses in one pass",
each arm following section 4.1: `inv_A = (A + reg·I)⁻¹`,
`coefs = inv_A · b`, and the snapshot of `A` is cached. -/
noncomputable def DisjointLinearRegressionUCB.est_coefs {K d : ℕ}
    (s : DisjointLinearRegressionUCB K d) : DisjointLinearRegressionUCB K d :=
  { s with
    inv_A := fun j => ridgeInv s.l2_reg (s.A j)
    coefs := fun j => (ridgeInv s.l2_reg (s.A j)).mulVec (s.b j)
    coefs_valid_for_A := fun j => s.A j }

/-- Shape-carrying tensor: a torch tensor as its shape plus row-major data;
`ndim` is the length of the shape. -/
structure Tens where
  shape : List ℕ
  data : List ℚ

/-- View a `Tens` as an `(n, m)` matrix, reading its data row-major. -/
def Tens.toMat (t : Tens) (n m : ℕ) : Matrix (Fin n) (Fin m) ℚ :=
  Matrix.of fun i j => t.data.getD (i.val * m + j.val) 0

/-- One sub-batch of `reagent.core.types.CBInput`: the fields the trainer
reads (`context_arm_features`, `reward`, `weight`). -/
structure CBInput where
  context_arm_features : Tens
  reward : Option Tens
  weight : Option Tens

namespace DisjointLinUCBTrainer

/-- `DisjointLinUCBTrainer.update_params` from
src/reagent/training/cb/disjoint_linucb_trainer.py.  Follows the source's
execution order: first `weight` defaults to `torch.ones_like(torch.tensor(y))`
(which raises when `y` is `None` too); then `A[arm_idx] += xᵗ·(x*weight)`;
then `b[arm_idx] += (xᵗ·(y*weight)).squeeze()` (which raises when `y` is
`None`, after `A` was already mutated).  Returns the scorer state after the
call and `some msg` when the call raises (`none` on a normal return, which
returns no value). -/
def update_params {K d n : ℕ} (s : DisjointLinearRegressionUCB K d) (arm_idx : Fin K)
    (x : Matrix (Fin n) (Fin d) ℚ) (y : Option (Matrix (Fin n) (Fin 1) ℚ))
    (weight : Option (Matrix (Fin n) (Fin 1) ℚ)) :
    DisjointLinearRegressionUCB K d × Option String :=
  let weightResolved : Option (Matrix (Fin n) (Fin 1) ℚ) :=
    match weight with
    | some w => some w
    | none => y.map onesLike
  match weightResolved with
  | none => (s, some "TypeError: could not infer dtype of NoneType")
  | some w =>
    let s1 : DisjointLinearRegressionUCB K d :=
      { s with
        A := Function.update s.A arm_idx (s.A arm_idx + x.transpose * rowMul x w) }
    match y with
    | none => (s1, some "TypeError: unsupported operand type for NoneType and Tensor")
    | some yv =>
      ({ s1 with
          b := Function.update s1.b arm_idx
            (s1.b arm_idx + squeezeCol (x.transpose * rowMul yv w)) },
        none)

/-- `DisjointLinUCBTrainer._check_input`: the batch has one sub-batch per arm,
every feature tensor is 2-dimensional, and every reward is present. -/
def _check_input (num_arms : ℕ) (batch : List CBInput) : Bool :=
  batch.length == num_arms &&
    batch.all fun sub_batch =>
      sub_batch.context_arm_features.shape.length == 2 && sub_batch.reward.isSome

/-- One iteration of the loop in `DisjointLinUCBTrainer.training_step`: read
arm `arm_idx`'s sub-batch and call `update_params` on its features, reward
and weight. -/
def stepArm {K d : ℕ} (s : DisjointLinearRegressionUCB K d) (arm_idx : Fin K)
    (batch : List CBInput) : DisjointLinearRegressionUCB K d × Option String :=
  let sub_batch := batch.getD arm_idx.val ⟨⟨[], []⟩, none, none⟩
  let nrows := sub_batch.context_arm_features.shape.getD 0 0
  update_params s arm_idx (sub_batch.context_arm_features.toMat nrows d)
    (sub_batch.reward.map (Tens.toMat · nrows 1))
    (sub_batch.weight.map (Tens.toMat · nrows 1))

/-- The per-arm loop of `DisjointLinUCBTrainer.training_step`: for each arm
index in order, call `update_params` on that arm's sub-batch; an exception
stops the loop with the state reached so far. -/
def runArmUpdates {K d : ℕ} :
    DisjointLinearRegressionUCB K d → List (Fin K) → List CBInput →
    DisjointLinearRegressionUCB K d × Option String
  | s, [], _ => (s, none)
  | s, arm_idx :: rest, batch =>
    match stepArm s arm_idx batch with
    | (s1, none) => runArmUpdates s1 rest batch
    | (s1, some e) => (s1, some e)

/-- `DisjointLinUCBTrainer.training_step`: validate the batch with
`_check_input` (a failed assert raises before any update), then update every
arm in index order. -/
def training_step {K d : ℕ} (s : DisjointLinearRegressionUCB K d)
    (batch : List CBInput) : DisjointLinearRegressionUCB K d × Option String :=
  if _check_input K batch then runArmUpdates s (List.finRange K) batch
  else (s, some "AssertionError")

/-- `DisjointLinUCBTrainer.on_train_epoch_end`: calls the scorer's
`_estimate_coefs` (the superclass hook touches no scorer state). -/
noncomputable def on_train_epoch_end {K d : ℕ} (s : DisjointLinearRegressionUCB K d) :
    DisjointLinearRegressionUCB K d :=
  s.est_coefs

end DisjointLinUCBTrainer

/-- Python-style dynamic value of the `predict_ucb` flag (declared
`predict_ucb: float = True` in src/reagent/models/deep_represent_linucb.py):
the object `True`, the object `False`, or a float.  `forward` distinguishes
the identity test `predict_ucb is True` from mere truthiness. -/
inductive PyVal where
  | pytrue : PyVal
  | pyfalse : PyVal
  | pyfloat : ℚ → PyVal
deriving DecidableEq

/-- Python truthiness of a `PyVal` (`True` is truthy, `False` is not, a float
is truthy iff nonzero). -/
def PyVal.truthy : PyVal → Bool
  | .pytrue => true
  | .pyfalse => false
  | .pyfloat q => q != 0

/-- State of `DeepRepresentLinearRegressionUCB`
(src/reagent/models/deep_represent_linucb.py).  The fields `A`, `b`, `inv_A`,
`coefs`, `coefs_valid_for_A`, `ucb_alpha`, `l2_reg`, `predict_ucb` are
inherited from `LinearRegressionUCB` and are modelled from the spec
(reagent/models/linear_regression.py is not under src/, spec section 4.1);
`deep_represent_layers` is the externally built feature transform (an opaque
capability per spec section 6), kept abstract as a shape-preserving function
family; `mlp_out`, `pred_u`, `pred_sigma` are the per-call caches the source
initializes to `None` and assigns in `forward`, stored with their batch size. -/
structure DeepRepresentLinearRegressionUCB (raw d : ℕ) where
  predict_ucb : PyVal
  ucb_alpha : ℚ
  l2_reg : ℚ
  A : Matrix (Fin d) (Fin d) ℚ
  b : Fin d → ℚ
  inv_A : Matrix (Fin d) (Fin d) ℚ
  coefs : Fin d → ℚ
  coefs_valid_for_A : Matrix (Fin d) (Fin d) ℚ
  deep_represent_layers : (n : ℕ) → Matrix (Fin n) (Fin raw) ℚ → Matrix (Fin n) (Fin d) ℚ
  mlp_out : Option ((n : ℕ) × Matrix (Fin n) (Fin d) ℚ)
  pred_u : Option ((n : ℕ) × (Fin n → ℚ))
  pred_sigma : Option ((n : ℕ) × (Fin n → ℝ))

namespace DeepRepresentLinearRegressionUCB

/-- Modelled from the spec: `LinearRegressionUCB._estimate_coefs`
(reagent/models/linear_regression.py, not under src/); per spec section 4.1,
"invert current A (ridge-regularized) to get inverse_A and
coefficients = inverse_A · b; cache a snapshot of A". -/
noncomputable def est_coefs {raw d : ℕ} (m : DeepRepresentLinearRegressionUCB raw d) :
    DeepRepresentLinearRegressionUCB raw d :=
  { m with
    inv_A := ridgeInv m.l2_reg m.A
    coefs := (ridgeInv m.l2_reg m.A).mulVec m.b
    coefs_valid_for_A := m.A }

/-- `DeepRepresentLinearRegressionUCB.forward`
(src/reagent/models/deep_represent_linucb.py), in the source's execution
order: store `mlp_out = deep_represent_layers(inp)`; default `ucb_alpha` to
the configured one; refresh the coefficients via `_estimate_coefs` when
`coefs_valid_for_A` differs from `A`; `assert predict_ucb is True` (raising
`AssertionError` when it fails); then the `if self.predict_ucb:` branch
computes `pred_u`, `pred_sigma` and returns `pred_u + pred_sigma`, while the
`else` branch assigns `pred_u` and raises.  Returns the post-call state and
either the UCB score vector or the raised error. -/
noncomputable def forward {raw d n : ℕ} (m : DeepRepresentLinearRegressionUCB raw d)
    (inp : Matrix (Fin n) (Fin raw) ℚ) (ucb_alpha : Option ℚ) :
    DeepRepresentLinearRegressionUCB raw d × Except String (Fin n → ℝ) :=
  let mo := m.deep_represent_layers n inp
  let m1 := { m with mlp_out := some ⟨n, mo⟩ }
  let alpha : ℚ := ucb_alpha.getD m1.ucb_alpha
  let m2 := if m1.coefs_valid_for_A = m1.A then m1 else m1.est_coefs
  if m2.predict_ucb = PyVal.pytrue then
    if m2.predict_ucb.truthy then
      let pu : Fin n → ℚ := mo.mulVec m2.coefs
      let ps : Fin n → ℝ := fun i =>
        (alpha : ℝ) * Real.sqrt ((batch_quadratic_form mo m2.inv_A i : ℚ) : ℝ)
      ({ m2 with pred_u := some ⟨n, pu⟩, pred_sigma := some ⟨n, ps⟩ },
        Except.ok fun i => (pu i : ℝ) + ps i)
    else
      ({ m2 with pred_u := some ⟨n, mo.mulVec m2.coefs⟩ },
        Except.error "Neural Network LinUCB currently only surport predicting ucb")
  else
    (m2, Except.error "AssertionError: predict_ucb is True")

end DeepRepresentLinearRegressionUCB

/-- A concrete two-arm, one-dimensional scorer state, used to instantiate the
trainer theorems at concrete inputs. -/
def sampleDisjoint : DisjointLinearRegressionUCB 2 1 where
  A := fun _ => Matrix.of fun _ _ => 0
  b := fun _ _ => 0
  inv_A := fun _ => Matrix.of fun _ _ => 0
  coefs := fun _ _ => 0
  coefs_valid_for_A := fun _ => Matrix.of fun _ _ => 0
  l2_reg := 1

/-- A concrete `1 × 1` feature matrix. -/
def sampleX : Matrix (Fin 1) (Fin 1) ℚ := Matrix.of fun _ _ => 1

/-- A concrete deep-represent model (`raw = d = 1`) in UCB mode whose cached
coefficients are fresh (`coefs_valid_for_A = A`); the feature transform is the
identity. -/
def sampleDeepFresh : DeepRepresentLinearRegressionUCB 1 1 where
  predict_ucb := PyVal.pytrue
  ucb_alpha := 1
  l2_reg := 1
  A := Matrix.of fun _ _ => 1
  b := fun _ => 1
  inv_A := Matrix.of fun _ _ => 1
  coefs := fun _ => 1
  coefs_valid_for_A := Matrix.of fun _ _ => 1
  deep_represent_layers := fun _ x => x
  mlp_out := none
  pred_u := none
  pred_sigma := none

/-- The same concrete model with a stale snapshot (`coefs_valid_for_A ≠ A`). -/
def sampleDeepStale : DeepRepresentLinearRegressionUCB 1 1 :=
  { sampleDeepFresh with coefs_valid_for_A := Matrix.of fun _ _ => 0 }

/-- The same concrete model in a non-UCB mode (`predict_ucb = False`). -/
def sampleDeepNonUcb : DeepRepresentLinearRegressionUCB 1 1 :=
  { sampleDeepFresh with predict_ucb := PyVal.pyfalse }

namespace DisjointLinUCBTrainer

/-- C1: for every arm index, `(n, d)` feature matrix `x`, present target `y`
of shape `(n, 1)` and optional weight (defaulting to all-ones of `y`'s
shape), `update_params` adds `xᵀ·(x*weight)` to the scorer's `A[arm_idx]`
(entry `(i,j)` grows by `∑ₖ x[k][i]·x[k][j]·w[k][0]`) and the squeezed
`xᵀ·(y*weight)` to `b[arm_idx]` (entry `i` grows by
`∑ₖ x[k][i]·y[k][0]·w[k][0]`), leaves every other persistent field unchanged,
and returns no value (raises nothing). -/
theorem update_params_accumulates {K d n : ℕ} (s : DisjointLinearRegressionUCB K d)
    (arm_idx : Fin K) (x : Matrix (Fin n) (Fin d) ℚ) (yv : Matrix (Fin n) (Fin 1) ℚ)
    (weight : Option (Matrix (Fin n) (Fin 1) ℚ)) :
    (update_params s arm_idx x (some yv) weight).2 = none ∧
    (∀ i j, (update_params s arm_idx x (some yv) weight).1.A arm_idx i j =
      s.A arm_idx i j + ∑ k, x k i * x k j * (weight.getD (onesLike yv)) k 0) ∧
    (∀ i, (update_params s arm_idx x (some yv) weight).1.b arm_idx i =
      s.b arm_idx i + ∑ k, x k i * yv k 0 * (weight.getD (onesLike yv)) k 0) ∧
    (update_params s arm_idx x (some yv) weight).1.inv_A = s.inv_A ∧
    (update_params s arm_idx x (some yv) weight).1.coefs = s.coefs ∧
    (update_params s arm_idx x (some yv) weight).1.coefs_valid_for_A =
      s.coefs_valid_for_A ∧
    (update_params s arm_idx x (some yv) weight).1.l2_reg = s.l2_reg := by
  rcases weight with _ | w <;>
    refine ⟨rfl, fun i j => ?_, fun i => ?_, rfl, rfl, rfl, rfl⟩ <;>
      simp [update_params, Function.update_same, Matrix.add_apply, Matrix.mul_apply,
        Matrix.transpose_apply, rowMul, squeezeCol, onesLike, mul_assoc]

/-- C4: `update_params` on arm `arm_idx` leaves every other arm's sufficient
statistics `A[j]`, `b[j]` unchanged, for every target/weight combination
(error paths included). -/
theorem update_params_frame {K d n : ℕ} (s : DisjointLinearRegressionUCB K d)
    (arm_idx j : Fin K) (x : Matrix (Fin n) (Fin d) ℚ)
    (y weight : Option (Matrix (Fin n) (Fin 1) ℚ)) (hj : j ≠ arm_idx) :
    (update_params s arm_idx x y weight).1.A j = s.A j ∧
    (update_params s arm_idx x y weight).1.b j = s.b j := by
  rcases weight with _ | w <;> rcases y with _ | yv <;>
    simp [update_params, Function.update_noteq hj]

/-- Witness for C4: updating arm `0` of a concrete two-arm state leaves arm
`1`'s statistics unchanged. -/
theorem update_params_frame_witness :
    ((1 : Fin 2) ≠ 0) ∧
    ((update_params sampleDisjoint 0 sampleX none none).1.A 1 = sampleDisjoint.A 1 ∧
     (update_params sampleDisjoint 0 sampleX none none).1.b 1 = sampleDisjoint.b 1) :=
  ⟨by decide, update_params_frame sampleDisjoint 0 1 sampleX none none (by decide)⟩

/-- C10: `update_params` called with both `y = None` and `weight = None`
raises while constructing the default weight (`torch.tensor(None)`), before
either `A` or `b` of any arm is mutated: the scorer state is returned
exactly as it was. -/
theorem update_params_none_target_raises_unmutated {K d n : ℕ}
    (s : DisjointLinearRegressionUCB K d) (arm_idx : Fin K)
    (x : Matrix (Fin n) (Fin d) ℚ) :
    update_params s arm_idx x none none =
      (s, some "TypeError: could not infer dtype of NoneType") := rfl

/-- C5: when `_check_input` fails (batch length differs from the arm count, a
feature tensor is not 2-dimensional, or a reward is missing), `training_step`
raises and every arm's statistics are left exactly as before the call. -/
theorem training_step_validation {K d : ℕ} (s : DisjointLinearRegressionUCB K d)
    (batch : List CBInput) (h : _check_input K batch = false) :
    training_step s batch = (s, some "AssertionError") := by
  simp [training_step, h]

/-- Witness for C5: an empty batch fails validation against a two-arm trainer
and leaves the concrete state untouched. -/
theorem training_step_validation_witness :
    _check_input 2 ([] : List CBInput) = false ∧
    training_step sampleDisjoint [] = (sampleDisjoint, some "AssertionError") :=
  ⟨by decide, training_step_validation sampleDisjoint [] (by decide)⟩

theorem update_params_derived_unchanged {K d n : ℕ} (s : DisjointLinearRegressionUCB K d)
    (arm_idx : Fin K) (x : Matrix (Fin n) (Fin d) ℚ)
    (y weight : Option (Matrix (Fin n) (Fin 1) ℚ)) :
    (update_params s arm_idx x y weight).1.inv_A = s.inv_A ∧
    (update_params s arm_idx x y weight).1.coefs = s.coefs ∧
    (update_params s arm_idx x y weight).1.coefs_valid_for_A = s.coefs_valid_for_A := by
  rcases weight with _ | w <;> rcases y with _ | yv <;> simp [update_params]

theorem stepArm_derived_unchanged {K d : ℕ} (s : DisjointLinearRegressionUCB K d)
    (arm_idx : Fin K) (batch : List CBInput) :
    (stepArm s arm_idx batch).1.inv_A = s.inv_A ∧
    (stepArm s arm_idx batch).1.coefs = s.coefs ∧
    (stepArm s arm_idx batch).1.coefs_valid_for_A = s.coefs_valid_for_A :=
  update_params_derived_unchanged s arm_idx _ _ _

theorem runArmUpdates_derived_unchanged {K d : ℕ} (arms : List (Fin K)) :
    ∀ (s : DisjointLinearRegressionUCB K d) (batch : List CBInput),
    (runArmUpdates s arms batch).1.inv_A = s.inv_A ∧
    (runArmUpdates s arms batch).1.coefs = s.coefs ∧
    (runArmUpdates s arms batch).1.coefs_valid_for_A = s.coefs_valid_for_A := by
  induction arms with
  | nil => intro s batch; exact ⟨rfl, rfl, rfl⟩
  | cons a rest ih =>
    intro s batch
    simp only [runArmUpdates]
    split
    next s1 heq =>
      have h1 := stepArm_derived_unchanged s a batch
      rw [heq] at h1
      have h2 := ih s1 batch
      exact ⟨h2.1.trans h1.1, h2.2.1.trans h1.2.1, h2.2.2.trans h1.2.2⟩
    next s1 e heq =>
      have h1 := stepArm_derived_unchanged s a batch
      rw [heq] at h1
      exact h1

/-- C6: `training_step` never re-estimates coefficients (it leaves `inv_A`,
`coefs` and the snapshot of every arm unchanged, only accumulating `A`, `b`),
while `on_train_epoch_end` is exactly the scorer's `_estimate_coefs`: it
leaves `A`, `b` unchanged and refreshes every arm's `inv_A`, `coefs` (ridge
solution from the current statistics) and snapshot. -/
theorem coefs_estimated_at_epoch_end_only {K d : ℕ}
    (s : DisjointLinearRegressionUCB K d) (batch : List CBInput) :
    ((training_step s batch).1.inv_A = s.inv_A ∧
     (training_step s batch).1.coefs = s.coefs ∧
     (training_step s batch).1.coefs_valid_for_A = s.coefs_valid_for_A) ∧
    on_train_epoch_end s = s.est_coefs ∧
    (on_train_epoch_end s).A = s.A ∧
    (on_train_epoch_end s).b = s.b ∧
    (∀ j, (on_train_epoch_end s).inv_A j = ridgeInv s.l2_reg (s.A j) ∧
      (on_train_epoch_end s).coefs j = (ridgeInv s.l2_reg (s.A j)).mulVec (s.b j) ∧
      (on_train_epoch_end s).coefs_valid_for_A j = s.A j) := by
  refine ⟨?_, rfl, rfl, rfl, fun j => ⟨rfl, rfl, rfl⟩⟩
  unfold training_step
  split
  · exact runArmUpdates_derived_unchanged (List.finRange K) s batch
  · exact ⟨rfl, rfl, rfl⟩

end DisjointLinUCBTrainer

namespace DeepRepresentLinearRegressionUCB

/-- C2: in UCB mode `forward` returns, row by row, the point estimate
`mlp_out · coefs` plus the uncertainty bonus
`ucb_alpha · sqrt(batch_quadratic_form(mlp_out, inv_A))`, where `mlp_out` is
the `deep_represent_layers` transform of the input, `coefs`/`inv_A` are the
(lazily refreshed) values held after the call, and `ucb_alpha` defaults to
the model's configured one when not passed; with `ucb_alpha = 0` the score
is the point estimate alone. -/
theorem forward_ucb_score {raw d n : ℕ} (m : DeepRepresentLinearRegressionUCB raw d)
    (inp : Matrix (Fin n) (Fin raw) ℚ) (ucb_alpha : Option ℚ)
    (hp : m.predict_ucb = PyVal.pytrue) :
    (forward m inp ucb_alpha).2 = Except.ok (fun i =>
      (((m.deep_represent_layers n inp).mulVec ((forward m inp ucb_alpha).1.coefs) i : ℚ) : ℝ) +
      ((ucb_alpha.getD m.ucb_alpha : ℚ) : ℝ) *
        Real.sqrt ((batch_quadratic_form (m.deep_represent_layers n inp)
          ((forward m inp ucb_alpha).1.inv_A) i : ℚ) : ℝ)) ∧
    (forward m inp ucb_alpha).1.mlp_out = some ⟨n, m.deep_represent_layers n inp⟩ ∧
    (forward m inp (some 0)).2 = Except.ok (fun i =>
      (((m.deep_represent_layers n inp).mulVec ((forward m inp (some 0)).1.coefs) i : ℚ) : ℝ)) := by
  by_cases hf : m.coefs_valid_for_A = m.A <;>
    refine ⟨?_, ?_, ?_⟩ <;>
      simp [forward, est_coefs, hf, hp, PyVal.truthy]

/-- Witness for C2: the concrete fresh UCB-mode model satisfies the
hypothesis, and `forward` stores the transformed input in `mlp_out`. -/
theorem forward_ucb_score_witness :
    sampleDeepFresh.predict_ucb = PyVal.pytrue ∧
    (forward sampleDeepFresh sampleX none).1.mlp_out =
      some ⟨1, sampleDeepFresh.deep_represent_layers 1 sampleX⟩ :=
  ⟨rfl, (forward_ucb_score sampleDeepFresh sampleX none rfl).2.1⟩

/-- C3: whenever the sufficient-statistics matrix `A` differs from the cached
snapshot `coefs_valid_for_A`, `forward` behaves exactly as it would on the
model whose coefficients and inverse were just recomputed by
`_estimate_coefs` (state and returned score alike), and the post-call
snapshot equals the current `A` — the score always reflects the latest
accumulated statistics. -/
theorem forward_refreshes_stale_coefs {raw d n : ℕ}
    (m : DeepRepresentLinearRegressionUCB raw d) (inp : Matrix (Fin n) (Fin raw) ℚ)
    (ucb_alpha : Option ℚ) (hstale : m.coefs_valid_for_A ≠ m.A) :
    forward m inp ucb_alpha = forward m.est_coefs inp ucb_alpha ∧
    (forward m inp ucb_alpha).1.coefs_valid_for_A = m.A := by
  by_cases hp : m.predict_ucb = PyVal.pytrue <;>
    refine ⟨?_, ?_⟩ <;>
      simp [forward, est_coefs, hstale, hp, PyVal.truthy]

/-- Witness for C3: the concrete stale model satisfies the hypothesis, and
`forward` leaves its snapshot equal to the current `A`. -/
theorem forward_refreshes_stale_coefs_witness :
    sampleDeepStale.coefs_valid_for_A ≠ sampleDeepStale.A ∧
    (forward sampleDeepStale sampleX none).1.coefs_valid_for_A = sampleDeepStale.A :=
  ⟨by decide, (forward_refreshes_stale_coefs sampleDeepStale sampleX none (by decide)).2⟩

/-- C7: whenever `predict_ucb` is not the value `True`, `forward` raises (the
assertion fails) and returns no score of any kind. -/
theorem forward_non_ucb_raises {raw d n : ℕ}
    (m : DeepRepresentLinearRegressionUCB raw d) (inp : Matrix (Fin n) (Fin raw) ℚ)
    (ucb_alpha : Option ℚ) (hp : m.predict_ucb ≠ PyVal.pytrue) :
    (forward m inp ucb_alpha).2 = Except.error "AssertionError: predict_ucb is True" := by
  by_cases hf : m.coefs_valid_for_A = m.A <;>
    simp [forward, est_coefs, hf, hp]

/-- Witness for C7: the concrete non-UCB-mode model satisfies the hypothesis
and `forward` on it raises. -/
theorem forward_non_ucb_raises_witness :
    sampleDeepNonUcb.predict_ucb ≠ PyVal.pytrue ∧
    (forward sampleDeepNonUcb sampleX none).2 =
      Except.error "AssertionError: predict_ucb is True" :=
  ⟨by decide, forward_non_ucb_raises sampleDeepNonUcb sampleX none (by decide)⟩

/-- C8 counterexample: at a concrete model in non-UCB mode and a concrete
input, `forward` raises with `pred_u` left exactly as it was (`None`): the
assertion fires before the else-branch, so no partial point estimate is
computed, contradicting the claim that `pred_u` is mutated before the
exception. -/
theorem forward_non_ucb_pred_u_untouched_cex :
    (forward sampleDeepNonUcb sampleX none).1.pred_u = none ∧
    (forward sampleDeepNonUcb sampleX none).2 =
      Except.error "AssertionError: predict_ucb is True" := by
  refine ⟨?_, ?_⟩ <;>
    simp [forward, est_coefs, sampleDeepNonUcb, sampleDeepFresh, sampleX]

/-- C8 amended: when `predict_ucb` is not `True`, the assertion raises before
the if/else: `mlp_out` is assigned (the transform runs first) but `pred_u` is
never assigned, and the dead else-branch's
"only surport predicting ucb" exception is never the outcome. -/
theorem forward_assert_precedes_pred_u {raw d n : ℕ}
    (m : DeepRepresentLinearRegressionUCB raw d) (inp : Matrix (Fin n) (Fin raw) ℚ)
    (ucb_alpha : Option ℚ) (hp : m.predict_ucb ≠ PyVal.pytrue) :
    (forward m inp ucb_alpha).1.pred_u = m.pred_u ∧
    (forward m inp ucb_alpha).1.mlp_out = some ⟨n, m.deep_represent_layers n inp⟩ ∧
    (forward m inp ucb_alpha).2 = Except.error "AssertionError: predict_ucb is True" ∧
    (forward m inp ucb_alpha).2 ≠
      Except.error "Neural Network LinUCB currently only surport predicting ucb" := by
  by_cases hf : m.coefs_valid_for_A = m.A <;>
    refine ⟨?_, ?_, ?_, ?_⟩ <;>
      simp [forward, est_coefs, hf, hp]

/-- Witness for the amended C8: at the concrete non-UCB-mode model, `pred_u`
is unchanged by the raising call. -/
theorem forward_assert_precedes_pred_u_witness :
    sampleDeepNonUcb.predict_ucb ≠ PyVal.pytrue ∧
    (forward sampleDeepNonUcb sampleX none).1.pred_u = sampleDeepNonUcb.pred_u :=
  ⟨by decide, (forward_assert_precedes_pred_u sampleDeepNonUcb sampleX none (by decide)).1⟩

/-- C9: for a non-negative exploration coefficient and a valid input (the
quadratic form of every transformed row against `inv_A` is non-negative, as a
positive-semidefinite `inv_A` guarantees), the uncertainty term `pred_sigma`
stored by `forward` is `alpha · sqrt(quadratic form)` row by row; it is
non-negative in every row and zero exactly in the degenerate cases
`alpha = 0` or quadratic form `= 0`. -/
theorem forward_pred_sigma_nonneg {raw d n : ℕ}
    (m : DeepRepresentLinearRegressionUCB raw d) (inp : Matrix (Fin n) (Fin raw) ℚ)
    (alpha : ℚ) (hp : m.predict_ucb = PyVal.pytrue)
    (hfresh : m.coefs_valid_for_A = m.A) (ha : 0 ≤ alpha)
    (hq : ∀ i, 0 ≤ batch_quadratic_form (m.deep_represent_layers n inp) m.inv_A i) :
    (forward m inp (some alpha)).1.pred_sigma = some ⟨n, fun i =>
      (alpha : ℝ) * Real.sqrt ((batch_quadratic_form (m.deep_represent_layers n inp)
        m.inv_A i : ℚ) : ℝ)⟩ ∧
    ∀ i, 0 ≤ (alpha : ℝ) * Real.sqrt ((batch_quadratic_form
        (m.deep_represent_layers n inp) m.inv_A i : ℚ) : ℝ) ∧
      ((alpha : ℝ) * Real.sqrt ((batch_quadratic_form
          (m.deep_represent_layers n inp) m.inv_A i : ℚ) : ℝ) = 0 ↔
        alpha = 0 ∨ batch_quadratic_form (m.deep_represent_layers n inp) m.inv_A i = 0) := by
  refine ⟨?_, fun i => ⟨?_, ?_⟩⟩
  · simp [forward, est_coefs, hfresh, hp, PyVal.truthy]
  · exact mul_nonneg (by exact_mod_cast ha) (Real.sqrt_nonneg _)
  · have hq' : (0 : ℝ) ≤ ((batch_quadratic_form (m.deep_represent_layers n inp)
        m.inv_A i : ℚ) : ℝ) := by exact_mod_cast hq i
    rw [mul_eq_zero, Real.sqrt_eq_zero hq']
    simp

theorem sample_quad_form_nonneg :
    ∀ i, 0 ≤ batch_quadratic_form (sampleDeepFresh.deep_represent_layers 1 sampleX)
      sampleDeepFresh.inv_A i := by
  intro i
  norm_num [batch_quadratic_form, Matrix.dotProduct, Matrix.mulVec, sampleDeepFresh,
    sampleX, Fin.sum_univ_one]

/-- Witness for C9: the concrete fresh UCB-mode model with `alpha = 1`
satisfies every hypothesis (the quadratic form of the transformed input
against the identity `inv_A` is `1 ≥ 0`), and the stored `pred_sigma` row is
non-negative. -/
theorem forward_pred_sigma_nonneg_witness :
    sampleDeepFresh.predict_ucb = PyVal.pytrue ∧
    sampleDeepFresh.coefs_valid_for_A = sampleDeepFresh.A ∧
    (0 : ℚ) ≤ 1 ∧
    (∀ i, 0 ≤ batch_quadratic_form (sampleDeepFresh.deep_represent_layers 1 sampleX)
      sampleDeepFresh.inv_A i) ∧
    ∀ i, 0 ≤ ((1 : ℚ) : ℝ) * Real.sqrt ((batch_quadratic_form
      (sampleDeepFresh.deep_represent_layers 1 sampleX) sampleDeepFresh.inv_A i : ℚ) : ℝ) :=
  ⟨rfl, rfl, by norm_num, sample_quad_form_nonneg,
    fun i => ((forward_pred_sigma_nonneg sampleDeepFresh sampleX 1 rfl rfl (by norm_num)
      sample_quad_form_nonneg).2 i).1⟩

end DeepRepresentLinearRegressionUCB

end ReAgent
